import Mathlib

/-!
Verification of the client-side remote-resource accessor
(`client/src/hooks/useApi.js`) of the mern-stack repository.

The hook is shallowly embedded: JavaScript values that flow through
`JSON.stringify`, the cache and the result records are modelled by the
inductive `JValue`; the hook's per-instance cache (`cacheRef`, a JS `Map`)
is an association list; the network (`fetch`) is a list of prescribed
outcomes consumed one per attempt; React state setters (`setData`,
`setLoading`, `setError`, `setStatus`) become functional updates of a
`RequestState` record, and the `onSuccess` / `onError` callbacks are
recorded as observable event lists.
-/

namespace UseApi

/-- JavaScript values, as far as the hook manipulates them: the request
body, the headers object, response payloads and the result records. -/
inductive JValue where
  | jnull
  | jbool (b : Bool)
  | jnum (n : Int)
  | jstr (s : String)
  | jarr (items : List JValue)
  | jobj (fields : List (String × JValue))

mutual

/-- `JSON.stringify`, restricted to the escaping-free values used here.
Object fields are serialized in insertion order, exactly as JavaScript
does. -/
def JValue.stringify : JValue → String
  | .jnull => "null"
  | .jbool true => "true"
  | .jbool false => "false"
  | .jnum n => toString n
  | .jstr s => "\"" ++ s ++ "\""
  | .jarr items => "[" ++ stringifyItems items ++ "]"
  | .jobj fields => "\x7b" ++ stringifyFields fields ++ "\x7d"

/-- Comma-separated serialization of a JSON array's elements. -/
def stringifyItems : List JValue → String
  | [] => ""
  | [v] => v.stringify
  | v :: w :: rest => v.stringify ++ "," ++ stringifyItems (w :: rest)

/-- Comma-separated serialization of a JSON object's fields, in list
(that is, insertion) order. -/
def stringifyFields : List (String × JValue) → String
  | [] => ""
  | [(k, v)] => "\"" ++ k ++ "\":" ++ v.stringify
  | (k, v) :: w :: rest => "\"" ++ k ++ "\":" ++ v.stringify ++ "," ++ stringifyFields (w :: rest)

end

/-- Field lookup in a serialized-object field list (first match). -/
def fieldLookup : List (String × JValue) → String → Option JValue
  | [], _ => none
  | (k, v) :: rest, key => if k = key then some v else fieldLookup rest key

/-- Field access on a JavaScript object value. -/
def jGetField : JValue → String → Option JValue
  | .jobj fields, key => fieldLookup fields key
  | _, _ => none

/-- The field names of a JavaScript object value, in insertion order. -/
def jKeys : JValue → List String
  | .jobj fields => fields.map Prod.fst
  | _ => []

/-- Whether `pat` occurs as a leading segment of `l`. -/
def leadingMatch : List Char → List Char → Bool
  | [], _ => true
  | _ :: _, [] => false
  | a :: as, b :: bs => a == b && leadingMatch as bs

/-- Whether `pat` occurs as a contiguous segment of `l`. -/
def segmentMatch (pat : List Char) : List Char → Bool
  | [] => pat.isEmpty
  | b :: bs => leadingMatch pat (b :: bs) || segmentMatch pat bs

/-- JavaScript `String.prototype.includes`. -/
def strContains (s pat : String) : Bool :=
  segmentMatch pat.toList s.toList

/-- The cache-status computation of the success path of `execute`
(useApi.js lines 131-139): first match wins, in the order written in the
source — `no-cache`, then `no-store`, then `validated`, else `fresh`. -/
def classifyHeaders (cacheControl etag lastModified : Option String) : String :=
  match cacheControl with
  | some s =>
    if strContains s "no-cache" then "no-cache"
    else if strContains s "no-store" then "no-store"
    else if etag.isSome || lastModified.isSome then "validated"
    else "fresh"
  | none =>
    if etag.isSome || lastModified.isSome then "validated" else "fresh"

/-- `getCacheKey` (useApi.js lines 26-28):
`method:endpoint:JSON.stringify(body):JSON.stringify(headers)`. -/
def getCacheKey (method endpoint : String) (body headers : JValue) : String :=
  method ++ ":" ++ endpoint ++ ":" ++ body.stringify ++ ":" ++ headers.stringify

/-- One entry of `cacheRef.current` (useApi.js lines 58-62). -/
structure CacheEntry where
  data : JValue
  timestamp : Nat
  status : String

/-- The hook's per-instance cache, a JS `Map` modelled as an association
list with unique keys. -/
abbrev CacheMap := List (String × CacheEntry)

/-- JS `Map.prototype.get`. -/
def mapGet : CacheMap → String → Option CacheEntry
  | [], _ => none
  | (k, e) :: rest, key => if k = key then some e else mapGet rest key

/-- JS `Map.prototype.set` (overwrites in place, keeps other entries). -/
def mapSet : CacheMap → String → CacheEntry → CacheMap
  | [], key, e => [(key, e)]
  | (k, e0) :: rest, key, e =>
    if k = key then (k, e) :: rest else (k, e0) :: mapSet rest key e

/-- JS `Map.prototype.delete`. -/
def mapDelete : CacheMap → String → CacheMap
  | [], _ => []
  | (k, e0) :: rest, key => if k = key then rest else (k, e0) :: mapDelete rest key

/-- What a cache hit carries back into `execute` (useApi.js lines 37-43). -/
structure CacheHit where
  data : JValue
  status : String
  age : Nat

/-- `getCachedData` (useApi.js lines 31-52).  Returns the optional hit
together with the cache as it stands afterwards: when the looked-up entry
has expired (`now - timestamp >= cacheTime`) it is deleted on this read.
A hit carries the literal status string "cached" (line 40), not the
entry's stored classification. -/
def getCachedData (cacheOn : Bool) (cacheTime : Nat) (key : String)
    (c : CacheMap) (now : Nat) : Option CacheHit × CacheMap :=
  if !cacheOn then (none, c)
  else
    match mapGet c key with
    | none => (none, c)
    | some e =>
      if now - e.timestamp < cacheTime then
        (some ⟨e.data, "cached", now - e.timestamp⟩, c)
      else
        (none, mapDelete c key)

/-- `setCachedData` (useApi.js lines 55-64): stores whenever the `cache`
config flag is on, whatever the classification string is. -/
def setCachedData (cacheOn : Bool) (key : String) (now : Nat)
    (d : JValue) (cs : String) (c : CacheMap) : CacheMap :=
  if cacheOn then mapSet c key ⟨d, now, cs⟩ else c

/-- The options of `useApi` that matter to `execute`, with the source's
default values (useApi.js lines 4-16). -/
structure Config where
  method : String := "GET"
  body : JValue := .jnull
  headers : JValue := .jobj []
  cache : Bool := false
  cacheTime : Nat := 300000
  retryCount : Nat := 3
  retryDelay : Nat := 1000
  skipCacheHeaders : Bool := false

/-- The hook's React state: `data`, `loading`, `error`, `status`
(useApi.js lines 18-21). -/
structure RequestState where
  data : Option JValue := none
  loading : Bool := false
  error : Option String := none
  status : Option Nat := none

/-- What one `fetch` attempt does: either the promise resolves with a
response (status plus the three cache headers plus a JSON body), or it
rejects with an error carrying a `name` and a `message` (an abort
rejects with `name = "AbortError"`). -/
inductive FetchOutcome where
  | resp (status : Nat) (cacheControl etag lastModified : Option String) (body : JValue)
  | netError (name message : String)

/-- Whether an attempt outcome is a transient failure in the sense of the
retry loop: a resolving response outside 2xx (the handler throws
`HTTP error! status: ...` at useApi.js line 124), or a rejection whose
name is not `AbortError`. -/
def isTransient : FetchOutcome → Bool
  | .resp status _ _ _ _ => ! decide (200 ≤ status ∧ status < 300)
  | .netError name _ => decide (name ≠ "AbortError")

/-- The error message the catch block sees for a failed attempt: the
`HTTP error! status: ...` string for a non-2xx response, or the
rejection's own message. -/
def transientMsg : FetchOutcome → String
  | .resp status _ _ _ _ => "HTTP error! status: " ++ toString status
  | .netError _ message => message

/-- The result record built on the success path of `execute`
(useApi.js lines 148-158). -/
def successRecord (d : JValue) (status : Nat) (cs : String)
    (cacheControl etag lastModified : Option String) : JValue :=
  .jobj [("data", d), ("status", .jnum status), ("fromCache", .jbool false),
         ("cacheStatus", .jstr cs),
         ("cacheHeaders", .jobj [
            ("cacheControl", cacheControl.elim JValue.jnull JValue.jstr),
            ("etag", etag.elim JValue.jnull JValue.jstr),
            ("lastModified", lastModified.elim JValue.jnull JValue.jstr)])]

/-- The result record returned on a cache hit (useApi.js lines 77-84). -/
def cacheHitRecord (d : JValue) (cs : String) (age : Nat) : JValue :=
  .jobj [("data", d), ("status", .jnum 200), ("fromCache", .jbool true),
         ("cacheStatus", .jstr cs), ("cacheAge", .jnum age)]

/-- The result record returned when the attempt was aborted
(useApi.js line 161). -/
def abortRecord : JValue :=
  .jobj [("data", .jnull), ("status", .jnull), ("aborted", .jbool true)]

/-- Everything observable about one `execute` call: the promise's
completion (`.ok` = resolves with a record, `.error` = rejects, as the
source's `throw err` does), the React state and cache afterwards, how
many `fetch` calls were made, and the `onSuccess` / `onError`
invocations. -/
structure ExecEffect where
  result : Except String JValue
  state : RequestState
  cacheMap : CacheMap
  calls : Nat
  successEvents : List JValue
  errorEvents : List (String × Nat)

/-- The `while (retries <= retryCount)` loop of `execute`
(useApi.js lines 93-177), with `fuel = retryCount + 1 - retries`
as the structural measure.  Each iteration consumes the next prescribed
`fetch` outcome.  On a resolving response the status is written to state
even when the status is not ok (line 118 precedes the `throw` of
line 124); an ok response writes the payload, stores into the cache,
fires `onSuccess` and resolves with the success record; an `AbortError`
resolves immediately with the abort record, touching nothing; any other
failure either retries or — once `retries > retryCount` — writes the
error message to state, fires `onError` with the attempt count, and
rejects. -/
def attemptLoop (cfg : Config) (key : String) (now : Nat) :
    Nat → Nat → List FetchOutcome → RequestState → CacheMap → Nat →
    List JValue → List (String × Nat) → ExecEffect
  | 0, _, _, st, c, calls, se, ee =>
    ⟨.error "loop exit", st, c, calls, se, ee⟩
  | fuel + 1, retries, env, st, c, calls, se, ee =>
    match env.headD (.netError "TypeError" "Failed to fetch") with
    | .resp status cc et lm d =>
      let st1 : RequestState := { st with status := some status }
      if 200 ≤ status ∧ status < 300 then
        let cs := classifyHeaders cc et lm
        ⟨.ok (successRecord d status cs cc et lm),
         { st1 with data := some d },
         setCachedData cfg.cache key now d cs c,
         calls + 1, se ++ [d], ee⟩
      else
        let msg := "HTTP error! status: " ++ toString status
        if cfg.retryCount < retries + 1 then
          ⟨.error msg, { st1 with error := some msg }, c, calls + 1, se,
           ee ++ [(msg, retries + 1)]⟩
        else
          attemptLoop cfg key now fuel (retries + 1) env.tail st1 c (calls + 1) se ee
    | .netError name msg =>
      if name = "AbortError" then
        ⟨.ok abortRecord, st, c, calls + 1, se, ee⟩
      else
        if cfg.retryCount < retries + 1 then
          ⟨.error msg, { st with error := some msg }, c, calls + 1, se,
           ee ++ [(msg, retries + 1)]⟩
        else
          attemptLoop cfg key now fuel (retries + 1) env.tail st c (calls + 1) se ee

/-- `execute` (useApi.js lines 73-178) for one call: consult the cache
first — a hit writes the payload and a 200 status to state and resolves
with the cache-hit record, making zero network calls; a miss sets
`loading := true`, clears `error`, and runs the retry loop with attempt
budget `retryCount + 1`. -/
def execute (cfg : Config) (endpoint : String) (env : List FetchOutcome)
    (st : RequestState) (c : CacheMap) (now : Nat) : ExecEffect :=
  let key := getCacheKey cfg.method endpoint cfg.body cfg.headers
  match getCachedData cfg.cache cfg.cacheTime key c now with
  | (some hit, c1) =>
    ⟨.ok (cacheHitRecord hit.data hit.status hit.age),
     { st with data := some hit.data, status := some 200 }, c1, 0, [], []⟩
  | (none, c1) =>
    attemptLoop cfg key now (cfg.retryCount + 1) 0 env
      { st with loading := true, error := none } c1 0 [] []

/-!
Interleaving model of two overlapping `execute` calls on one hook
instance.  It isolates the mechanism the source actually has: a new
`execute` call only *replaces* `abortControllerRef.current` with a new
controller (useApi.js line 90) — it does not signal the previous one —
each in-flight `fetch` holds the signal of the controller that was
current when its config was built (line 101), `abort()` signals only the
currently-held controller (lines 181-185), and the completion handlers
write to React state unconditionally, with no generation check
(lines 118, 128, 164-172).  Cache and callbacks are off, and each call
makes a single attempt; a non-2xx resolution records the `setStatus`
write and then the handler throws into the retry path, which the machine
does not pursue further — the superseding question only needs the 2xx
completion.
-/

/-- Identifies which of the two overlapping calls a trace event belongs
to. -/
inductive CallId where
  | A
  | B
deriving DecidableEq

/-- Observable events of the interleaved run: a call starting (its
synchronous prefix, useApi.js lines 87-90), a call mutating
`RequestState`, and a call's promise settling. -/
inductive TraceEvt where
  | started (c : CallId)
  | wrote (c : CallId)
  | settled (c : CallId)
deriving DecidableEq

/-- Global state of the interleaving machine: the React state, the token
counter and the currently-held controller token (`abortControllerRef`),
which tokens have been signaled, the token each call's in-flight `fetch`
captured, and the event trace. -/
structure CtrlState where
  req : RequestState
  nextToken : Nat
  currentToken : Option Nat
  signaled : List Nat
  tokA : Option Nat
  tokB : Option Nat
  trace : List TraceEvt

/-- The machine before any call starts. -/
def initCtrl : CtrlState :=
  ⟨⟨none, false, none, none⟩, 0, none, [], none, none, []⟩

/-- Scheduler steps: the synchronous start of a call, the resolution of a
call's `fetch` (with the response status and body), and `abort()`. -/
inductive SchedStep where
  | start (c : CallId)
  | finish (c : CallId) (status : Nat) (body : JValue)
  | abortNow

/-- The synchronous prefix of `execute` on a cache miss
(useApi.js lines 87-90): `setLoading(true)`, `setError(null)`, then
`abortControllerRef.current = new AbortController()`.  The previous
controller is replaced, never signaled. -/
def doStart (c : CallId) (s : CtrlState) : CtrlState :=
  { s with
    req := { s.req with loading := true, error := none },
    currentToken := some s.nextToken,
    nextToken := s.nextToken + 1,
    tokA := if c = .A then some s.nextToken else s.tokA,
    tokB := if c = .B then some s.nextToken else s.tokB,
    trace := s.trace ++ [.started c, .wrote c, .wrote c] }

/-- The token a call's in-flight `fetch` captured at config time. -/
def callToken (c : CallId) (s : CtrlState) : Option Nat :=
  match c with
  | .A => s.tokA
  | .B => s.tokB

/-- The resolution of a call's single `fetch`: if the signal this call
captured was aborted, `fetch` rejected with `AbortError` and the handler
returns the abort record without touching state (useApi.js
lines 159-162); otherwise `setStatus` runs (line 118), and — only when
the response is ok (2xx, line 121) — `setData` runs too (line 128) and
the call settles.  On a non-2xx resolution the handler throws after
`setStatus` and before `setData` (lines 121-124), continuing into the
retry path (not pursued here).  In no branch is there a check that this
call is still the most recent one. -/
def doFinish (c : CallId) (status : Nat) (body : JValue) (s : CtrlState) : CtrlState :=
  match callToken c s with
  | none => s
  | some t =>
    if s.signaled.contains t then
      { s with trace := s.trace ++ [.settled c] }
    else if 200 ≤ status ∧ status < 300 then
      { s with
        req := { s.req with status := some status, data := some body },
        trace := s.trace ++ [.wrote c, .wrote c, .settled c] }
    else
      { s with
        req := { s.req with status := some status },
        trace := s.trace ++ [.wrote c] }

/-- `abort` (useApi.js lines 181-185): signals only the controller
currently held by `abortControllerRef`. -/
def doAbort (s : CtrlState) : CtrlState :=
  match s.currentToken with
  | none => s
  | some t => { s with signaled := t :: s.signaled }

/-- Run a schedule of interleaved steps. -/
def runSched : List SchedStep → CtrlState → CtrlState
  | [], s => s
  | .start c :: rest, s => runSched rest (doStart c s)
  | .finish c status body :: rest, s => runSched rest (doFinish c status body s)
  | .abortNow :: rest, s => runSched rest (doAbort s)

/-- Whether the trace contains a `RequestState` write by call A strictly
after call B's start — exactly what the superseding invariant forbids
once B (started second) is the most recent call. -/
def staleWriteAfterSupersede (t : List TraceEvt) : Bool :=
  ((t.dropWhile (fun e => !(e = TraceEvt.started .B))).drop 1).contains (.wrote .A)

/-- The schedule in which call A starts, call B starts while A is still
in flight, and then A's `fetch` resolves. -/
def supersedeSchedule (body : JValue) : List SchedStep :=
  [.start .A, .start .B, .finish .A 200 body]

/-- The shapes an `execute` promise completion can take: a rejection, or
a resolving record whose field list is that of the cache-hit record, the
success record, or the abort record. -/
def resultShapeOk : Except String JValue → Prop
  | .error _ => True
  | .ok v =>
    jKeys v = ["data", "status", "fromCache", "cacheStatus", "cacheAge"] ∨
    jKeys v = ["data", "status", "fromCache", "cacheStatus", "cacheHeaders"] ∨
    jKeys v = ["data", "status", "aborted"]

/-- A headers object with fields inserted in the order a, b. -/
def headersAB : JValue := .jobj [("a", .jstr "1"), ("b", .jstr "2")]

/-- The same headers mapping with fields inserted in the order b, a. -/
def headersBA : JValue := .jobj [("b", .jstr "2"), ("a", .jstr "1")]

/-! ## Helper lemmas about the cache operations and `execute` -/

theorem getCachedData_disabled (ct : Nat) (k : String) (c : CacheMap) (now : Nat) :
    getCachedData false ct k c now = (none, c) := by
  simp [getCachedData]

theorem getCachedData_missing (ct : Nat) (k : String) (c : CacheMap) (now : Nat)
    (h : mapGet c k = none) : getCachedData true ct k c now = (none, c) := by
  simp [getCachedData, h]

theorem getCachedData_live (ct : Nat) (k : String) (c : CacheMap) (now : Nat)
    (e : CacheEntry) (h : mapGet c k = some e) (hf : now - e.timestamp < ct) :
    getCachedData true ct k c now = (some ⟨e.data, "cached", now - e.timestamp⟩, c) := by
  simp [getCachedData, h, hf]

theorem getCachedData_expired (ct : Nat) (k : String) (c : CacheMap) (now : Nat)
    (e : CacheEntry) (h : mapGet c k = some e) (hf : ct ≤ now - e.timestamp) :
    getCachedData true ct k c now = (none, mapDelete c k) := by
  simp [getCachedData, h, Nat.not_lt.mpr hf]

theorem mapGet_mapSet_self (c : CacheMap) (k : String) (e : CacheEntry) :
    mapGet (mapSet c k e) k = some e := by
  induction c with
  | nil => simp [mapSet, mapGet]
  | cons hd tl ih =>
    obtain ⟨k0, e0⟩ := hd
    by_cases h : k0 = k
    · simp [mapSet, mapGet, h]
    · simp [mapSet, mapGet, h, ih]

theorem execute_of_cache_hit (cfg : Config) (ep : String) (env : List FetchOutcome)
    (st : RequestState) (c : CacheMap) (now : Nat) (hit : CacheHit) (c1 : CacheMap)
    (h : getCachedData cfg.cache cfg.cacheTime
        (getCacheKey cfg.method ep cfg.body cfg.headers) c now = (some hit, c1)) :
    execute cfg ep env st c now =
      ⟨.ok (cacheHitRecord hit.data hit.status hit.age),
       { st with data := some hit.data, status := some 200 }, c1, 0, [], []⟩ := by
  simp only [execute]
  rw [h]

theorem execute_of_cache_miss (cfg : Config) (ep : String) (env : List FetchOutcome)
    (st : RequestState) (c : CacheMap) (now : Nat) (c1 : CacheMap)
    (h : getCachedData cfg.cache cfg.cacheTime
        (getCacheKey cfg.method ep cfg.body cfg.headers) c now = (none, c1)) :
    execute cfg ep env st c now =
      attemptLoop cfg (getCacheKey cfg.method ep cfg.body cfg.headers) now
        (cfg.retryCount + 1) 0 env
        { st with loading := true, error := none } c1 0 [] [] := by
  simp only [execute]
  rw [h]

theorem attemptLoop_first_ok (cfg : Config) (k : String) (now fuel retries : Nat)
    (env : List FetchOutcome) (st : RequestState) (c : CacheMap) (calls : Nat)
    (se : List JValue) (ee : List (String × Nat)) (status : Nat)
    (cc et lm : Option String) (d : JValue)
    (hok : 200 ≤ status ∧ status < 300) :
    attemptLoop cfg k now (fuel + 1) retries (.resp status cc et lm d :: env) st c calls se ee =
      ⟨.ok (successRecord d status (classifyHeaders cc et lm) cc et lm),
       { st with status := some status, data := some d },
       setCachedData cfg.cache k now d (classifyHeaders cc et lm) c,
       calls + 1, se ++ [d], ee⟩ := by
  simp [attemptLoop, hok]

/-- When every prescribed attempt fails with a transient error — a
non-2xx response or a non-abort rejection, in any mixture — the loop
consumes the whole attempt budget: one `fetch` call per unit of fuel,
the message of the last failure written to state, one `onError`
invocation carrying `retryCount + 1`, a rejection with that last
message, no `onSuccess`, and an untouched cache. -/
theorem attemptLoop_all_transient (cfg : Config) (k : String) (now : Nat) :
    ∀ (env : List FetchOutcome) (o : FetchOutcome) (fuel retries : Nat)
      (st : RequestState) (c : CacheMap) (calls : Nat) (se : List JValue)
      (ee : List (String × Nat)),
      env.getLast? = some o →
      (∀ x ∈ env, isTransient x = true) →
      env.length = fuel →
      retries + fuel = cfg.retryCount + 1 →
      (attemptLoop cfg k now fuel retries env st c calls se ee).result =
          .error (transientMsg o) ∧
      (attemptLoop cfg k now fuel retries env st c calls se ee).state.error =
          some (transientMsg o) ∧
      (attemptLoop cfg k now fuel retries env st c calls se ee).calls = calls + fuel ∧
      (attemptLoop cfg k now fuel retries env st c calls se ee).errorEvents =
          ee ++ [(transientMsg o, cfg.retryCount + 1)] ∧
      (attemptLoop cfg k now fuel retries env st c calls se ee).successEvents = se ∧
      (attemptLoop cfg k now fuel retries env st c calls se ee).cacheMap = c := by
  intro env
  induction env with
  | nil =>
    intro o fuel retries st c calls se ee hlast _ _ _
    simp at hlast
  | cons x rest ih =>
    intro o fuel retries st c calls se ee hlast hall hf hcount
    subst hf
    have hx : isTransient x = true := hall x (by simp)
    simp only [List.length_cons] at hcount ⊢
    cases x with
    | resp status cc et lm d =>
      have hnok : ¬(200 ≤ status ∧ status < 300) := by
        simp [isTransient] at hx
        omega
      rw [attemptLoop]
      simp only [List.headD_cons, List.tail_cons]
      rw [if_neg hnok]
      cases rest with
      | nil =>
        have h0 : [FetchOutcome.resp status cc et lm d].getLast? =
            some (FetchOutcome.resp status cc et lm d) := rfl
        have ho : o = FetchOutcome.resp status cc et lm d :=
          (Option.some.inj (h0.symm.trans hlast)).symm
        subst ho
        simp only [List.length_nil] at hcount
        rw [if_pos (by omega)]
        have heq : retries + 1 = cfg.retryCount + 1 := by omega
        refine ⟨rfl, rfl, by simp, ?_, rfl, rfl⟩
        rw [heq]
        rfl
      | cons r rs =>
        simp only [List.length_cons] at hcount
        rw [if_neg (by omega)]
        have hlast2 : (r :: rs).getLast? = some o := by
          rw [show (FetchOutcome.resp status cc et lm d :: r :: rs).getLast? =
              (r :: rs).getLast? from rfl] at hlast
          exact hlast
        have hall2 : ∀ y ∈ r :: rs, isTransient y = true := by
          intro y hy
          exact hall y (by simp [hy])
        obtain ⟨h1, h2, h3, h4, h5, h6⟩ :=
          ih o (r :: rs).length (retries + 1) { st with status := some status }
            c (calls + 1) se ee hlast2 hall2 rfl
            (by simp only [List.length_cons]; omega)
        refine ⟨h1, h2, ?_, h4, h5, h6⟩
        rw [h3]
        omega
    | netError name msg =>
      have hn : ¬(name = "AbortError") := by
        simpa [isTransient] using hx
      rw [attemptLoop]
      simp only [List.headD_cons, List.tail_cons]
      rw [if_neg hn]
      cases rest with
      | nil =>
        have h0 : [FetchOutcome.netError name msg].getLast? =
            some (FetchOutcome.netError name msg) := rfl
        have ho : o = FetchOutcome.netError name msg :=
          (Option.some.inj (h0.symm.trans hlast)).symm
        subst ho
        simp only [List.length_nil] at hcount
        rw [if_pos (by omega)]
        have heq : retries + 1 = cfg.retryCount + 1 := by omega
        refine ⟨rfl, rfl, by simp, ?_, rfl, rfl⟩
        rw [heq]
        rfl
      | cons r rs =>
        simp only [List.length_cons] at hcount
        rw [if_neg (by omega)]
        have hlast2 : (r :: rs).getLast? = some o := by
          rw [show (FetchOutcome.netError name msg :: r :: rs).getLast? =
              (r :: rs).getLast? from rfl] at hlast
          exact hlast
        have hall2 : ∀ y ∈ r :: rs, isTransient y = true := by
          intro y hy
          exact hall y (by simp [hy])
        obtain ⟨h1, h2, h3, h4, h5, h6⟩ :=
          ih o (r :: rs).length (retries + 1) st c (calls + 1) se ee
            hlast2 hall2 rfl
            (by simp only [List.length_cons]; omega)
        refine ⟨h1, h2, ?_, h4, h5, h6⟩
        rw [h3]
        omega

/-- Whatever the environment does, the loop's completion is a rejection
or a record of one of the three shapes (success, cache hit, aborted). -/
theorem attemptLoop_shape (cfg : Config) (k : String) (now : Nat) :
    ∀ fuel retries env st c calls se ee,
    resultShapeOk (attemptLoop cfg k now fuel retries env st c calls se ee).result := by
  intro fuel
  induction fuel with
  | zero =>
    intro retries env st c calls se ee
    simp [attemptLoop, resultShapeOk]
  | succ f ih =>
    intro retries env st c calls se ee
    rw [attemptLoop]
    cases henv : env.headD (.netError "TypeError" "Failed to fetch") with
    | resp status cc et lm d =>
      dsimp only
      by_cases hok : 200 ≤ status ∧ status < 300
      · rw [if_pos hok]
        simp [resultShapeOk, successRecord, jKeys]
      · rw [if_neg hok]
        by_cases hr : cfg.retryCount < retries + 1
        · rw [if_pos hr]
          simp [resultShapeOk]
        · rw [if_neg hr]
          exact ih (retries + 1) env.tail _ c (calls + 1) se ee
    | netError name msg =>
      dsimp only
      by_cases hn : name = "AbortError"
      · rw [if_pos hn]
        simp [resultShapeOk, abortRecord, jKeys]
      · rw [if_neg hn]
        by_cases hr : cfg.retryCount < retries + 1
        · rw [if_pos hr]
          simp [resultShapeOk]
        · rw [if_neg hr]
          exact ih (retries + 1) env.tail st c (calls + 1) se ee

/-- With the `cache` flag off, the retry loop never touches the cache. -/
theorem attemptLoop_cache_off (cfg : Config) (k : String) (now : Nat)
    (hoff : cfg.cache = false) :
    ∀ fuel retries env st c calls se ee,
    (attemptLoop cfg k now fuel retries env st c calls se ee).cacheMap = c := by
  intro fuel
  induction fuel with
  | zero =>
    intro retries env st c calls se ee
    simp [attemptLoop]
  | succ f ih =>
    intro retries env st c calls se ee
    rw [attemptLoop]
    cases henv : env.headD (.netError "TypeError" "Failed to fetch") with
    | resp status cc et lm d =>
      dsimp only
      by_cases hok : 200 ≤ status ∧ status < 300
      · rw [if_pos hok]
        simp [setCachedData, hoff]
      · rw [if_neg hok]
        by_cases hr : cfg.retryCount < retries + 1
        · rw [if_pos hr]
        · rw [if_neg hr]
          exact ih (retries + 1) env.tail _ c (calls + 1) se ee
    | netError name msg =>
      dsimp only
      by_cases hn : name = "AbortError"
      · rw [if_pos hn]
      · rw [if_neg hn]
        by_cases hr : cfg.retryCount < retries + 1
        · rw [if_pos hr]
        · rw [if_neg hr]
          exact ih (retries + 1) env.tail st c (calls + 1) se ee

/-- Unfolding of `doFinish` for an unsignaled token and an ok (2xx)
status: `setStatus` and `setData` both run and the call settles. -/
theorem doFinish_ok (c : CallId) (status : Nat) (body : JValue) (s : CtrlState)
    (t : Nat) (htok : callToken c s = some t)
    (hsig : s.signaled.contains t = false)
    (hok : 200 ≤ status ∧ status < 300) :
    doFinish c status body s =
      { s with
        req := { s.req with status := some status, data := some body },
        trace := s.trace ++ [.wrote c, .wrote c, .settled c] } := by
  rw [doFinish, htok]
  simp at hsig
  simp [hsig, hok]

/-! ## Claims -/

/-- C1, counterexample.  The claim says a superseded in-flight
`execute()` call never writes to RequestState after a newer call has
started.  In the interleaving in which call A starts, call B starts
while A is in flight, and then A's fetch resolves, the trace contains a
RequestState write by A strictly after B's start (the source neither
signals the previous controller on a new `execute` nor checks a
generation before writing), and the final RequestState holds A's stale
payload. -/
theorem claim1_counterexample :
    staleWriteAfterSupersede
      (runSched (supersedeSchedule (.jstr "stale")) initCtrl).trace = true ∧
    (runSched (supersedeSchedule (.jstr "stale")) initCtrl).req.data =
      some (.jstr "stale") :=
  ⟨rfl, rfl⟩

/-- C1, amended.  A newer `execute()` call only replaces
`abortControllerRef.current`; the superseded call keeps its own
unsignaled token, so when its fetch resolves with a 2xx status it still
writes statusCode and payload to RequestState after the newer call has
started — the last call to complete, not the last to start, determines
RequestState. -/
theorem claim1_amended (body : JValue) (status : Nat)
    (hok : 200 ≤ status ∧ status < 300) :
    staleWriteAfterSupersede
      (runSched [.start .A, .start .B, .finish .A status body] initCtrl).trace = true ∧
    (runSched [.start .A, .start .B, .finish .A status body] initCtrl).req.data =
      some body ∧
    (runSched [.start .A, .start .B, .finish .A status body] initCtrl).req.status =
      some status := by
  have hrun : runSched [SchedStep.start CallId.A, SchedStep.start CallId.B,
      SchedStep.finish CallId.A status body] initCtrl =
      doFinish CallId.A status body (doStart CallId.B (doStart CallId.A initCtrl)) := rfl
  have hfin := doFinish_ok CallId.A status body
    (doStart CallId.B (doStart CallId.A initCtrl)) 0 rfl rfl hok
  rw [hrun, hfin]
  exact ⟨rfl, rfl, rfl⟩

/-- Witness for `claim1_amended` at a 200 resolution of the superseded
call. -/
theorem claim1_witness :
    staleWriteAfterSupersede
      (runSched [.start .A, .start .B, .finish .A 200 (.jstr "stale")] initCtrl).trace
      = true :=
  (claim1_amended (.jstr "stale") 200 (by omega)).1

/-- C2 (code_bug), evaluation at the failing input.  When the in-flight
attempt is aborted, `execute` resolves with the abort record, writes no
payload or error, and fires neither callback — but `loading` stays
`true`: no path of the source ever calls `setLoading(false)`, although
the repository's own tests (`useApi.test.js`, "should abort ongoing
requests") expect `loading` to become false. -/
theorem claim2_bug_loading_never_cleared :
    (execute { method := "GET" } "/api/posts"
      [.netError "AbortError" "The user aborted a request."]
      ⟨none, false, none, none⟩ [] 0).result = .ok abortRecord ∧
    (execute { method := "GET" } "/api/posts"
      [.netError "AbortError" "The user aborted a request."]
      ⟨none, false, none, none⟩ [] 0).state.loading = true ∧
    (execute { method := "GET" } "/api/posts"
      [.netError "AbortError" "The user aborted a request."]
      ⟨none, false, none, none⟩ [] 0).state.error = none ∧
    (execute { method := "GET" } "/api/posts"
      [.netError "AbortError" "The user aborted a request."]
      ⟨none, false, none, none⟩ [] 0).state.data = none ∧
    (execute { method := "GET" } "/api/posts"
      [.netError "AbortError" "The user aborted a request."]
      ⟨none, false, none, none⟩ [] 0).successEvents = [] ∧
    (execute { method := "GET" } "/api/posts"
      [.netError "AbortError" "The user aborted a request."]
      ⟨none, false, none, none⟩ [] 0).errorEvents = [] :=
  ⟨rfl, rfl, rfl, rfl, rfl, rfl⟩

/-- C3, counterexample.  The claim says every outcome of `execute()` —
including exhausted failure — resolves with a result record.  With
`retryCount = 0` and a single failing attempt, `execute` instead rejects
(the source's `throw err` on line 171), so the exhausted-failure outcome
is not a resolving record. -/
theorem claim3_counterexample :
    (execute { method := "GET", retryCount := 0 } "/api/posts"
      [.netError "Error" "boom"] ⟨none, false, none, none⟩ [] 0).result =
      .error "boom" :=
  rfl

/-- C3, amended.  Every completion of `execute` is either a rejection
(the exhausted-failure outcome throws instead of resolving) or a record
of exactly one of three shapes: the cache-hit record
(data, status, fromCache, cacheStatus, cacheAge), the success record
(data, status, fromCache, cacheStatus, cacheHeaders), or the abort
record (data, status, aborted) — no resolving record carries all of the
claimed fields at once. -/
theorem claim3_amended (cfg : Config) (ep : String) (env : List FetchOutcome)
    (st : RequestState) (c : CacheMap) (now : Nat) :
    resultShapeOk (execute cfg ep env st c now).result := by
  rcases h : getCachedData cfg.cache cfg.cacheTime
      (getCacheKey cfg.method ep cfg.body cfg.headers) c now with ⟨hit | hit, c1⟩
  · rw [execute_of_cache_miss cfg ep env st c now c1 h]
    exact attemptLoop_shape cfg _ now _ 0 env _ c1 0 [] []
  · rw [execute_of_cache_hit cfg ep env st c now hit c1 h]
    simp [resultShapeOk, cacheHitRecord, jKeys]

/-- C4, counterexample.  The claim says `no-store` is checked first, so
any cache-control value containing "no-store" is classified `no-store`
even when it also contains "no-cache".  The source checks `no-cache`
first (useApi.js lines 132-136), so the combined header is classified
`no-cache`, not `no-store`. -/
theorem claim4_counterexample :
    classifyHeaders (some "no-store, no-cache") (some "abc123") none = "no-cache" ∧
    classifyHeaders (some "no-store, no-cache") (some "abc123") none ≠ "no-store" :=
  ⟨rfl, by decide⟩

/-- C4, amended.  The classifier applies its rules first-match-wins in
the order no-cache, no-store, validated, fresh: a cache-control value
containing "no-store" is classified `no-store` only when it does not
also contain "no-cache"; when both occur, `no-cache` wins. -/
theorem claim4_amended (s : String) (et lm : Option String)
    (h : strContains s "no-store" = true) :
    classifyHeaders (some s) et lm =
      if strContains s "no-cache" then "no-cache" else "no-store" := by
  by_cases hc : strContains s "no-cache" = true
  · simp [classifyHeaders, hc]
  · simp [classifyHeaders, hc, h]

/-- Witness for `claim4_amended` at the header value "no-store". -/
theorem claim4_amended_witness :
    classifyHeaders (some "no-store") none none =
      (if strContains "no-store" "no-cache" then "no-cache" else "no-store") :=
  claim4_amended "no-store" none none (by rfl)

/-- C5.  With caching enabled and an empty cache, a first `execute` that
succeeds on its only attempt stores the payload; a second `execute` on
the same controller issued within `cacheTime` of that store makes zero
network calls and resolves with the cache-hit record, whose `fromCache`
field is `true` and whose `data` field is the first response's payload. -/
theorem claim5_second_call_served_from_cache (cfg : Config) (ep : String)
    (d : JValue) (cc et lm : Option String) (st : RequestState)
    (now1 now2 : Nat) (env2 : List FetchOutcome)
    (hcache : cfg.cache = true) (hfresh : now2 - now1 < cfg.cacheTime) :
    (execute cfg ep env2
        (execute cfg ep [.resp 200 cc et lm d] st [] now1).state
        (execute cfg ep [.resp 200 cc et lm d] st [] now1).cacheMap now2).calls = 0 ∧
    (execute cfg ep env2
        (execute cfg ep [.resp 200 cc et lm d] st [] now1).state
        (execute cfg ep [.resp 200 cc et lm d] st [] now1).cacheMap now2).result =
      .ok (cacheHitRecord d "cached" (now2 - now1)) ∧
    jGetField (cacheHitRecord d "cached" (now2 - now1)) "fromCache" =
      some (.jbool true) ∧
    jGetField (cacheHitRecord d "cached" (now2 - now1)) "data" =
      some d := by
  have hmiss : getCachedData cfg.cache cfg.cacheTime
      (getCacheKey cfg.method ep cfg.body cfg.headers) [] now1 = (none, []) := by
    rw [hcache]
    exact getCachedData_missing _ _ _ _ rfl
  have e1 : execute cfg ep [.resp 200 cc et lm d] st [] now1 =
      ⟨.ok (successRecord d 200 (classifyHeaders cc et lm) cc et lm),
       { st with loading := true, error := none, status := some 200, data := some d },
       setCachedData cfg.cache (getCacheKey cfg.method ep cfg.body cfg.headers) now1 d
         (classifyHeaders cc et lm) [],
       1, [d], []⟩ := by
    rw [execute_of_cache_miss cfg ep _ st [] now1 [] hmiss,
        attemptLoop_first_ok cfg _ now1 cfg.retryCount 0 [] _ [] 0 [] [] 200 cc et lm d
          (by omega)]
    simp
  have hset : setCachedData cfg.cache (getCacheKey cfg.method ep cfg.body cfg.headers)
      now1 d (classifyHeaders cc et lm) [] =
      [(getCacheKey cfg.method ep cfg.body cfg.headers,
        ⟨d, now1, classifyHeaders cc et lm⟩)] := by
    rw [hcache]
    rfl
  have hhit : getCachedData cfg.cache cfg.cacheTime
      (getCacheKey cfg.method ep cfg.body cfg.headers)
      [(getCacheKey cfg.method ep cfg.body cfg.headers,
        ⟨d, now1, classifyHeaders cc et lm⟩)] now2 =
      (some ⟨d, "cached", now2 - now1⟩,
       [(getCacheKey cfg.method ep cfg.body cfg.headers,
         ⟨d, now1, classifyHeaders cc et lm⟩)]) := by
    rw [hcache]
    exact getCachedData_live _ _ _ _ ⟨d, now1, classifyHeaders cc et lm⟩
      (by simp [mapGet]) hfresh
  rw [e1]
  dsimp only
  rw [hset]
  rw [execute_of_cache_hit cfg ep env2 _ _ now2 _ _ hhit]
  exact ⟨rfl, rfl, rfl, rfl⟩

/-- Witness for `claim5_second_call_served_from_cache`: caching on, TTL
300000 ms, second call 100 ms after the first — zero network calls. -/
theorem claim5_witness :
    (execute { method := "GET", cache := true } "/posts" []
        (execute { method := "GET", cache := true } "/posts"
          [.resp 200 none none none (.jarr [])] ⟨none, false, none, none⟩ [] 0).state
        (execute { method := "GET", cache := true } "/posts"
          [.resp 200 none none none (.jarr [])] ⟨none, false, none, none⟩ [] 0).cacheMap
        100).calls = 0 :=
  (claim5_second_call_served_from_cache { method := "GET", cache := true } "/posts"
    (.jarr []) none none none ⟨none, false, none, none⟩ 0 100 [] rfl (by decide)).1

/-- C6.  When every attempt fails with a transient error — any mixture
of non-2xx responses and non-abort transport failures — `execute` makes
exactly `retryCount + 1` network calls, writes the last failure's error
message to RequestState, and fires `onError` once with the error and the
attempt count `retryCount + 1` (and `onSuccess` never fires, and the
call rejects). -/
theorem claim6_exhausts_retry_budget (cfg : Config) (ep : String)
    (env : List FetchOutcome) (o : FetchOutcome)
    (st : RequestState) (c : CacheMap) (now : Nat)
    (hoff : cfg.cache = false)
    (hall : ∀ x ∈ env, isTransient x = true)
    (hlen : env.length = cfg.retryCount + 1)
    (hlast : env.getLast? = some o) :
    (execute cfg ep env st c now).calls = cfg.retryCount + 1 ∧
    (execute cfg ep env st c now).state.error = some (transientMsg o) ∧
    (execute cfg ep env st c now).errorEvents = [(transientMsg o, cfg.retryCount + 1)] ∧
    (execute cfg ep env st c now).successEvents = [] ∧
    (execute cfg ep env st c now).result = .error (transientMsg o) := by
  have hmiss : getCachedData cfg.cache cfg.cacheTime
      (getCacheKey cfg.method ep cfg.body cfg.headers) c now = (none, c) := by
    rw [hoff]
    exact getCachedData_disabled _ _ _ _
  rw [execute_of_cache_miss cfg ep env st c now c hmiss]
  obtain ⟨h1, h2, h3, h4, h5, h6⟩ :=
    attemptLoop_all_transient cfg (getCacheKey cfg.method ep cfg.body cfg.headers) now
      env o (cfg.retryCount + 1) 0 { st with loading := true, error := none } c 0 [] []
      hlast hall hlen (by omega)
  refine ⟨?_, h2, ?_, h5, h1⟩
  · rw [h3]
    omega
  · rw [h4]
    simp

/-- Witness for `claim6_exhausts_retry_budget` at `retryCount = 2` with
a mixed failure pattern (transport error, then a 500 response, then a
second transport error): exactly 3 network calls and `onError` invoked
with the last message and attempt count 3. -/
theorem claim6_witness :
    (execute { method := "GET", retryCount := 2 } "/p"
        [.netError "Error" "boom", .resp 500 none none none .jnull,
         .netError "TypeError" "Failed to fetch"]
        ⟨none, false, none, none⟩ [] 0).calls = 3 ∧
    (execute { method := "GET", retryCount := 2 } "/p"
        [.netError "Error" "boom", .resp 500 none none none .jnull,
         .netError "TypeError" "Failed to fetch"]
        ⟨none, false, none, none⟩ [] 0).errorEvents = [("Failed to fetch", 3)] :=
  ⟨(claim6_exhausts_retry_budget { method := "GET", retryCount := 2 } "/p"
      [.netError "Error" "boom", .resp 500 none none none .jnull,
       .netError "TypeError" "Failed to fetch"]
      (.netError "TypeError" "Failed to fetch")
      ⟨none, false, none, none⟩ [] 0 rfl (by decide) rfl rfl).1,
   (claim6_exhausts_retry_budget { method := "GET", retryCount := 2 } "/p"
      [.netError "Error" "boom", .resp 500 none none none .jnull,
       .netError "TypeError" "Failed to fetch"]
      (.netError "TypeError" "Failed to fetch")
      ⟨none, false, none, none⟩ [] 0 rfl (by decide) rfl rfl).2.2.1⟩

/-- C7.  With caching on and an entry present under the key, a cache
read returns absent and deletes the entry exactly when
`now - storedAt ≥ cacheTime` (lazily, on that read); consequently an
`execute` issued once the entry has expired performs a network call and,
when that call succeeds, resolves with `fromCache = false`. -/
theorem claim7_lazy_expiry (cfg : Config) (ep : String) (e : CacheEntry)
    (st : RequestState) (c : CacheMap) (now : Nat) (env : List FetchOutcome)
    (d : JValue) (cc et lm : Option String) (k : String)
    (hk : k = getCacheKey cfg.method ep cfg.body cfg.headers)
    (hcache : cfg.cache = true)
    (hget : mapGet c k = some e) :
    (getCachedData cfg.cache cfg.cacheTime k c now = (none, mapDelete c k) ↔
      cfg.cacheTime ≤ now - e.timestamp) ∧
    (cfg.cacheTime ≤ now - e.timestamp →
      (execute cfg ep (.resp 200 cc et lm d :: env) st c now).calls = 1 ∧
      (execute cfg ep (.resp 200 cc et lm d :: env) st c now).result =
        .ok (successRecord d 200 (classifyHeaders cc et lm) cc et lm) ∧
      jGetField (successRecord d 200 (classifyHeaders cc et lm) cc et lm) "fromCache" =
        some (.jbool false)) := by
  subst hk
  constructor
  · constructor
    · intro hdel
      by_contra hge
      push_neg at hge
      rw [hcache, getCachedData_live cfg.cacheTime _ c now e hget hge] at hdel
      simp at hdel
    · intro hexp
      rw [hcache]
      exact getCachedData_expired _ _ _ _ e hget hexp
  · intro hexp
    have hmiss : getCachedData cfg.cache cfg.cacheTime
        (getCacheKey cfg.method ep cfg.body cfg.headers) c now =
        (none, mapDelete c (getCacheKey cfg.method ep cfg.body cfg.headers)) := by
      rw [hcache]
      exact getCachedData_expired _ _ _ _ e hget hexp
    rw [execute_of_cache_miss cfg ep _ st c now _ hmiss]
    rw [attemptLoop_first_ok cfg _ now cfg.retryCount 0 env _ _ 0 [] [] 200 cc et lm d
        (by omega)]
    exact ⟨rfl, rfl, rfl⟩

/-- Witness for `claim7_lazy_expiry`: TTL 5 ms, entry stored at 0, read
at 10 — the read evicts, and the refetch succeeds with one call. -/
theorem claim7_witness :
    (execute { method := "GET", cache := true, cacheTime := 5 } "/p"
        [.resp 200 none none none .jnull] ⟨none, false, none, none⟩
        [(getCacheKey "GET" "/p" .jnull (.jobj []), ⟨.jnull, 0, "fresh"⟩)]
        10).calls = 1 :=
  ((claim7_lazy_expiry { method := "GET", cache := true, cacheTime := 5 } "/p"
      ⟨.jnull, 0, "fresh"⟩ ⟨none, false, none, none⟩
      [(getCacheKey "GET" "/p" .jnull (.jobj []), ⟨.jnull, 0, "fresh"⟩)]
      10 [] .jnull none none none _ rfl rfl (by rw [mapGet]; simp)).2 (by decide)).1

/-- C8.  Storage into the cache is governed only by the `cache` config
flag and response success: with the flag on, a successful response is
stored under the request's key whatever its classification (including
`no-store` and `no-cache`); with the flag off, no `execute` ever
modifies the cache. -/
theorem claim8_storage_only_by_flag (cfg : Config) :
    (cfg.cache = true →
      ∀ k now d cs c, setCachedData cfg.cache k now d cs c = mapSet c k ⟨d, now, cs⟩) ∧
    (cfg.cache = true →
      ∀ ep d cc et lm st now env,
        mapGet ((execute cfg ep (.resp 200 cc et lm d :: env) st [] now).cacheMap)
          (getCacheKey cfg.method ep cfg.body cfg.headers) =
          some ⟨d, now, classifyHeaders cc et lm⟩) ∧
    (cfg.cache = false →
      ∀ ep env st c now, (execute cfg ep env st c now).cacheMap = c) := by
  refine ⟨?_, ?_, ?_⟩
  · intro h k now d cs c
    rw [h]
    rfl
  · intro h ep d cc et lm st now env
    have hmiss : getCachedData cfg.cache cfg.cacheTime
        (getCacheKey cfg.method ep cfg.body cfg.headers) [] now = (none, []) := by
      rw [h]
      exact getCachedData_missing _ _ _ _ rfl
    rw [execute_of_cache_miss cfg ep _ st [] now [] hmiss]
    rw [attemptLoop_first_ok cfg _ now cfg.retryCount 0 env _ [] 0 [] [] 200 cc et lm d
        (by omega)]
    dsimp only
    rw [h]
    simp [setCachedData, mapGet_mapSet_self]
  · intro h ep env st c now
    have hmiss : getCachedData cfg.cache cfg.cacheTime
        (getCacheKey cfg.method ep cfg.body cfg.headers) c now = (none, c) := by
      rw [h]
      exact getCachedData_disabled _ _ _ _
    rw [execute_of_cache_miss cfg ep env st c now c hmiss]
    exact attemptLoop_cache_off cfg _ now h _ 0 env _ c 0 [] []

/-- Witness for `claim8_storage_only_by_flag`: with caching on, a
`no-store` response is still stored; with caching off, the cache is left
untouched. -/
theorem claim8_witness :
    setCachedData true "k" 5 .jnull "no-store" [] = mapSet [] "k" ⟨.jnull, 5, "no-store"⟩ ∧
    (execute { method := "GET", cache := false } "/p"
      [.resp 200 (some "no-store") none none .jnull]
      ⟨none, false, none, none⟩ [] 0).cacheMap = [] :=
  ⟨(claim8_storage_only_by_flag { method := "GET", cache := true }).1 rfl
      "k" 5 .jnull "no-store" [],
   (claim8_storage_only_by_flag { method := "GET", cache := false }).2.2 rfl
      "/p" [.resp 200 (some "no-store") none none .jnull] ⟨none, false, none, none⟩ [] 0⟩

/-- C9, counterexample.  The claim says the cache key is order-stable
for mapping types.  `headersAB` and `headersBA` are equal as maps (same
key set up to permutation, same value at every key), yet built in
different insertion orders they produce different cache keys, because
`getCacheKey` goes through `JSON.stringify`, which serializes fields in
insertion order. -/
theorem claim9_counterexample :
    List.Perm (jKeys headersAB) (jKeys headersBA) ∧
    jGetField headersAB "a" = jGetField headersBA "a" ∧
    jGetField headersAB "b" = jGetField headersBA "b" ∧
    (getCacheKey "GET" "/api/posts" .jnull headersAB ==
      getCacheKey "GET" "/api/posts" .jnull headersBA) = false := by
  refine ⟨?_, rfl, rfl, ?_⟩
  · decide
  · rfl

/-- C9, amended.  The cache key is identical for requests whose method,
endpoint, serialized body and serialized headers coincide; since the
serialization follows insertion order, the key encodes this narrower,
order-sensitive equivalence, and mappings equal as maps but serialized
in different insertion orders can yield different keys. -/
theorem claim9_amended (m ep : String) (b h b2 h2 : JValue)
    (hb : JValue.stringify b = JValue.stringify b2)
    (hh : JValue.stringify h = JValue.stringify h2) :
    getCacheKey m ep b h = getCacheKey m ep b2 h2 := by
  simp [getCacheKey, hb, hh]

/-- Witness for `claim9_amended` at a concrete request. -/
theorem claim9_witness :
    getCacheKey "GET" "/api/posts" .jnull headersAB =
      getCacheKey "GET" "/api/posts" .jnull headersAB :=
  claim9_amended "GET" "/api/posts" .jnull headersAB .jnull headersAB rfl rfl

/-- C10.  An `execute` satisfied by a cache hit sets payload and a 200
status but leaves `error` exactly as it was — a terminal error message
from the preceding call remains in RequestState — whereas the cache-miss
path clears `error` to none (shown here on a miss that succeeds). -/
theorem claim10_cache_hit_keeps_stale_error (cfg : Config) (ep : String)
    (e : CacheEntry) (st : RequestState) (c : CacheMap) (now : Nat)
    (msg : String) (env : List FetchOutcome) (k : String)
    (hk : k = getCacheKey cfg.method ep cfg.body cfg.headers)
    (hcache : cfg.cache = true)
    (hget : mapGet c k = some e)
    (hfresh : now - e.timestamp < cfg.cacheTime)
    (herr : st.error = some msg) :
    (execute cfg ep env st c now).state.error = some msg ∧
    (execute cfg ep env st c now).state.data = some e.data ∧
    (execute cfg ep env st c now).state.status = some 200 ∧
    (execute cfg ep env st c now).calls = 0 ∧
    (execute cfg ep env st c now).result =
      .ok (cacheHitRecord e.data "cached" (now - e.timestamp)) ∧
    (∀ env2 d cc et lm,
      (execute cfg ep (.resp 200 cc et lm d :: env2) st [] now).state.error = none) := by
  subst hk
  have hhit : getCachedData cfg.cache cfg.cacheTime
      (getCacheKey cfg.method ep cfg.body cfg.headers) c now =
      (some ⟨e.data, "cached", now - e.timestamp⟩, c) := by
    rw [hcache]
    exact getCachedData_live _ _ _ _ e hget hfresh
  rw [execute_of_cache_hit cfg ep env st c now _ c hhit]
  refine ⟨by simp [herr], rfl, rfl, rfl, rfl, ?_⟩
  intro env2 d cc et lm
  have hmiss : getCachedData cfg.cache cfg.cacheTime
      (getCacheKey cfg.method ep cfg.body cfg.headers) [] now = (none, []) := by
    rw [hcache]
    exact getCachedData_missing _ _ _ _ rfl
  rw [execute_of_cache_miss cfg ep _ st [] now [] hmiss]
  rw [attemptLoop_first_ok cfg _ now cfg.retryCount 0 env2 _ [] 0 [] [] 200 cc et lm d
      (by omega)]

/-- Witness for `claim10_cache_hit_keeps_stale_error`: a previous error
message survives a cache hit unchanged. -/
theorem claim10_witness :
    (execute { method := "GET", cache := true, cacheTime := 5 } "/p" []
        ⟨none, false, some "old failure", none⟩
        [(getCacheKey "GET" "/p" .jnull (.jobj []), ⟨.jnull, 0, "fresh"⟩)]
        1).state.error = some "old failure" :=
  (claim10_cache_hit_keeps_stale_error { method := "GET", cache := true, cacheTime := 5 }
      "/p" ⟨.jnull, 0, "fresh"⟩ ⟨none, false, some "old failure", none⟩
      [(getCacheKey "GET" "/p" .jnull (.jobj []), ⟨.jnull, 0, "fresh"⟩)]
      1 "old failure" [] _ rfl rfl (by rw [mapGet]; simp) (by decide) rfl).1

end UseApi
